import Mathlib

/-!
Shallow embedding of `PycharmProjects/TweetDelete/main.py` (class
`TwitterCleaner`) and proofs about its specification.

Modelling conventions:
* Identifiers (tweet ids, user ids, pagination tokens) are `String`,
  matching the `str(...)` canonical forms the script uses.
* A tweet dict built by `get_all_tweets` is a `TweetRec`: the fields
  copied from the API object plus the `ref_tweet_<id>_author` keys,
  modelled as the association list `refAuthors` with Python-dict
  (last-write-wins) lookup semantics.
* The tweepy client is an explicit collaborator: a lookup function for
  `get_user`, a fetch function for `get_users_tweets` (taking the
  pagination cursor), and a success predicate for `delete_tweet`.
* The unbounded `while True` pagination loop is given explicit fuel;
  every theorem about it assumes enough fuel for the page chain at hand,
  which models the source's unbounded iteration.
-/

/-- One entry of a tweet's `referenced_tweets` list: the reference kind
(`type`, e.g. `"retweeted"`) and the id of the referenced tweet. -/
structure RawRef where
  type : String
  id : String
deriving DecidableEq, Repr

/-- One tweet as returned in a page's `data` field. -/
structure RawTweet where
  id : String
  text : String
  created_at : String
  referenced_tweets : List RawRef
deriving DecidableEq, Repr

/-- One tweet of the page's `includes` expansion payload: its id and its
author's id. -/
structure IncTweet where
  id : String
  author_id : String
deriving DecidableEq, Repr

/-- One response of `client.get_users_tweets`: the page's tweets, its
expansion payload, and the optional `next_token` of `meta`. -/
structure Page where
  data : List RawTweet
  includes : List IncTweet
  next : Option String
deriving DecidableEq, Repr

/-- The dict built per tweet by `get_all_tweets`: id, text, created_at and
`referenced_tweets` copied verbatim, plus one `(ref_tweet_id, author_id)`
pair per tweet of the page's expansion payload (the
`ref_tweet_<id>_author` keys of the Python dict). -/
structure TweetRec where
  id : String
  text : String
  created_at : String
  refs : List RawRef
  refAuthors : List (String × String)
deriving DecidableEq, Repr

/-- Python-dict lookup over an association list built by successive key
assignments: the latest assignment to a key wins. -/
def lastLookup : List (String × String) → String → Option String
  | [], _ => none
  | (k, v) :: rest, key =>
    match lastLookup rest key with
    | some v2 => some v2
    | none => if k = key then some v else none

/-- The scan of `should_delete_tweet` over the tweet's
`referenced_tweets`: on the first reference of type `"retweeted"` whose
`ref_tweet_<id>_author` key is present with an author in the preserve
set, return `false` (keep); otherwise fall through and return `true`
(delete). -/
def scanRefs (refAuthors : List (String × String)) (preserve : List String) :
    List RawRef → Bool
  | [] => true
  | r :: rest =>
    if r.type = "retweeted" then
      match lastLookup refAuthors r.id with
      | some a => if a ∈ preserve then false else scanRefs refAuthors preserve rest
      | none => scanRefs refAuthors preserve rest
    else scanRefs refAuthors preserve rest

/-- `TwitterCleaner.should_delete_tweet`: `true` means delete. The
`PreserveSet` is the set of user-id strings; it is modelled as a list
with membership semantics. -/
def should_delete_tweet (tw : TweetRec) (preserve : List String) : Bool :=
  scanRefs tw.refAuthors preserve tw.refs

/-- The two classification outcomes of the spec's data model. -/
inductive Outcome where
  | Delete
  | Preserve
deriving DecidableEq, Repr

/-- The classifier as the orchestrator uses it: a tweet goes to the
delete pile exactly when `should_delete_tweet` returns `true`. -/
def classify (tw : TweetRec) (preserve : List String) : Outcome :=
  if should_delete_tweet tw preserve then Outcome.Delete else Outcome.Preserve

/-- A tweet record has a preserved retweet reference: some reference of
type `"retweeted"` whose author key resolves to a member of the preserve
set. -/
def hasPreservedRetweet (tw : TweetRec) (preserve : List String) : Prop :=
  ∃ r ∈ tw.refs, r.type = "retweeted" ∧
    ∃ a, lastLookup tw.refAuthors r.id = some a ∧ a ∈ preserve

/-- The concrete record used to instantiate claim C9. -/
def twC9 : TweetRec :=
  ⟨"1", "t", "d", [⟨"retweeted", "9"⟩, ⟨"replied_to", "8"⟩], [("9", "77")]⟩

/-- The tally accumulated by `delete_tweets`: the two counters plus the
list of tweet ids for which `client.delete_tweet` was actually invoked
(empty in dry-run mode). -/
structure Tally where
  deleted : Nat
  failed : Nat
  calls : List String
deriving DecidableEq, Repr

/-- The loop guard `if MAX_TWEETS_TO_PROCESS and i >= MAX_TWEETS_TO_PROCESS`.
Python truthiness: the guard can only fire when the configured cap is
neither `None` nor `0`. -/
def capReached : Option Nat → Nat → Bool
  | none, _ => false
  | some n, i => decide (n ≠ 0) && decide (n ≤ i)

/-- The body of `TwitterCleaner.delete_tweets`: iterate with `enumerate`
index `i`, break when the cap guard fires, then either simulate (dry
run), or call `client.delete_tweet` and count success or failure as the
collaborator predicate `deleteOk` dictates. -/
def deleteLoop (dryRun : Bool) (maxCount : Option Nat) (deleteOk : String → Bool) :
    List TweetRec → Nat → Tally → Tally
  | [], _, acc => acc
  | tw :: rest, i, acc =>
    if capReached maxCount i then acc
    else if dryRun then
      deleteLoop dryRun maxCount deleteOk rest (i + 1)
        { acc with deleted := acc.deleted + 1 }
    else if deleteOk tw.id then
      deleteLoop dryRun maxCount deleteOk rest (i + 1)
        { deleted := acc.deleted + 1, failed := acc.failed,
          calls := acc.calls ++ [tw.id] }
    else
      deleteLoop dryRun maxCount deleteOk rest (i + 1)
        { deleted := acc.deleted, failed := acc.failed + 1,
          calls := acc.calls ++ [tw.id] }

/-- `TwitterCleaner.delete_tweets`, starting from zero counters. -/
def delete_tweets (dryRun : Bool) (maxCount : Option Nat) (deleteOk : String → Bool)
    (tweets : List TweetRec) : Tally :=
  deleteLoop dryRun maxCount deleteOk tweets 0 ⟨0, 0, []⟩

/-- How many list elements the deletion loop still iterates when the
`enumerate` index starts at `i` and `len` elements remain. -/
def itersFrom (maxCount : Option Nat) (i len : Nat) : Nat :=
  match maxCount with
  | none => len
  | some n => if n = 0 then len else min (n - i) len

/-- Number of posts the deletion loop iterates on an input of length
`len`: the full length when the cap is `None` or `0` (a zero cap is
falsy, hence never in effect), else the smaller of cap and length. -/
def processedCount (maxCount : Option Nat) (len : Nat) : Nat :=
  itersFrom maxCount 0 len

/-- A concrete reference-free record, used for concrete executor runs. -/
def twPlain : TweetRec := ⟨"5", "hello", "d", [], []⟩

/-- The record built for one raw tweet of a page: the fields copied
verbatim plus one `ref_tweet_<id>_author` entry for every tweet of the
page's expansion payload. -/
def mkRec (includes : List IncTweet) (t : RawTweet) : TweetRec :=
  ⟨t.id, t.text, t.created_at, t.referenced_tweets,
    includes.map (fun it => (it.id, it.author_id))⟩

/-- Per-page processing of `get_all_tweets`: one `TweetRec` per tweet of
the page's `data`, each carrying the page-wide expansion entries. -/
def processPage (pg : Page) : List TweetRec :=
  pg.data.map (mkRec pg.includes)

/-- Observable outcome of the fetch loop: the aggregated records, the
pagination cursors passed to `client.get_users_tweets` in order, and the
logged per-page fetch errors. -/
structure FetchResult where
  records : List TweetRec
  requests : List (Option String)
  errors : List String
deriving DecidableEq, Repr

/-- The `while True` loop of `get_all_tweets`, with explicit fuel for
the unbounded iteration. One round: request the page at the current
cursor; on an exception log it and break; otherwise aggregate the
page's records, then continue at `next_token` if `meta` has one and
break if not. -/
def fetchLoop (fetch : Option String → Except String Page) :
    Nat → Option String → FetchResult
  | 0, _ => ⟨[], [], []⟩
  | fuel + 1, cursor =>
    match fetch cursor with
    | .error e => ⟨[], [cursor], [e]⟩
    | .ok pg =>
      match pg.next with
      | none => ⟨processPage pg, [cursor], []⟩
      | some t =>
        let r := fetchLoop fetch fuel (some t)
        ⟨processPage pg ++ r.records, cursor :: r.requests, r.errors⟩

/-- `TwitterCleaner.get_all_tweets`: run the fetch loop from the null
cursor. -/
def get_all_tweets (fetch : Option String → Except String Page) (fuel : Nat) :
    FetchResult :=
  fetchLoop fetch fuel none

/-- An error-free page chain: starting at `cursor` the collaborator
returns exactly these pages, each one's `next_token` leading to the
next page's request, the last page carrying no `next_token`. -/
inductive FetchChain (fetch : Option String → Except String Page) :
    Option String → List Page → Prop
  | last (c : Option String) (p : Page) :
      fetch c = .ok p → p.next = none → FetchChain fetch c [p]
  | step (c : Option String) (p : Page) (t : String) (rest : List Page) :
      fetch c = .ok p → p.next = some t →
      FetchChain fetch (some t) rest → FetchChain fetch c (p :: rest)

/-- A page chain ending in a request error: from `cursor` the listed
pages are returned, each with a `next_token`, and the request following
the last of them fails with message `e`. -/
inductive FetchErrChain (fetch : Option String → Except String Page)
    (e : String) : Option String → List Page → Prop
  | here (c : Option String) : fetch c = .error e → FetchErrChain fetch e c []
  | step (c : Option String) (p : Page) (t : String) (rest : List Page) :
      fetch c = .ok p → p.next = some t →
      FetchErrChain fetch e (some t) rest → FetchErrChain fetch e c (p :: rest)

/-- First concrete page: two tweets (one a retweet of tweet 9), one
expansion entry, and a next token. -/
def pageA : Page :=
  ⟨[⟨"1", "hello", "d1", []⟩, ⟨"2", "rt", "d2", [⟨"retweeted", "9"⟩]⟩],
    [⟨"9", "77"⟩], some "T"⟩

/-- Second concrete page: one tweet and no next token. -/
def pageB : Page := ⟨[⟨"3", "bye", "d3", []⟩], [], none⟩

/-- A collaborator serving the two chained pages. -/
def fetchAB : Option String → Except String Page
  | none => .ok pageA
  | some "T" => .ok pageB
  | some _ => .error "bad cursor"

/-- A collaborator whose second page request raises. -/
def fetchBoom : Option String → Except String Page
  | none => .ok pageA
  | some _ => .error "boom"

/-- A collaborator whose first page is empty but carries a next token. -/
def fetchEmptyNext : Option String → Except String Page
  | none => .ok ⟨[], [], some "T"⟩
  | some "T" => .ok pageB
  | some _ => .error "bad cursor"

/-- A collaborator returning a single empty, token-free page. -/
def fetchEmptyOnly : Option String → Except String Page :=
  fun _ => .ok ⟨[], [], none⟩

/-- Outcome of one `client.get_user(username=...)` call: `user.data`
present (with the id already in its `str` canonical form), `user.data`
falsy, or an exception. -/
inductive LookupResult where
  | found (id : String)
  | notFound
  | err (msg : String)
deriving DecidableEq, Repr

/-- Python `set.add` on the list model of a set: append unless already a
member. -/
def insertSet (s : List String) (x : String) : List String :=
  if x ∈ s then s else s ++ [x]

/-- One iteration of `get_user_ids_to_preserve`: on success add the id,
on a falsy `user.data` or an exception warn and continue unchanged. -/
def preserveStep (resolve : String → LookupResult) (acc : List String)
    (u : String) : List String :=
  match resolve u with
  | .found i => insertSet acc i
  | .notFound => acc
  | .err _ => acc

/-- `TwitterCleaner.get_user_ids_to_preserve`: fold the per-username
lookup over the configured list, starting from the empty set. -/
def get_user_ids_to_preserve (resolve : String → LookupResult)
    (usernames : List String) : List String :=
  usernames.foldl (preserveStep resolve) []

/-- Terminal situation of one `TwitterCleaner.run` call. -/
inductive RunOutcome where
  | aborted
  | noTweets
  | nothingToDelete
  | completed (deleted failed : Nat)
deriving DecidableEq, Repr

/-- Observable outcome of `run`: how it ended, and the tweet ids for
which `client.delete_tweet` was invoked. -/
structure RunResult where
  outcome : RunOutcome
  deleteCalls : List String
deriving DecidableEq, Repr

/-- `TwitterCleaner.run`: when not in dry-run mode, prompt for the
confirmation phrase and return `Aborted.` on anything but `DELETE`;
otherwise resolve the preserve set, fetch the history, split it by the
classifier, and hand the delete pile to `delete_tweets`. -/
def run (dryRun : Bool) (confirm : String) (resolve : String → LookupResult)
    (usernames : List String) (fetch : Option String → Except String Page)
    (fuel : Nat) (maxCount : Option Nat) (deleteOk : String → Bool) : RunResult :=
  if dryRun = false ∧ confirm ≠ "DELETE" then ⟨RunOutcome.aborted, []⟩
  else
    let preserve := get_user_ids_to_preserve resolve usernames
    let allTweets := (get_all_tweets fetch fuel).records
    if allTweets.isEmpty then ⟨RunOutcome.noTweets, []⟩
    else
      let toDelete := allTweets.filter (fun tw => should_delete_tweet tw preserve)
      if toDelete.isEmpty then ⟨RunOutcome.nothingToDelete, []⟩
      else
        let r := delete_tweets dryRun maxCount deleteOk toDelete
        ⟨RunOutcome.completed r.deleted r.failed, r.calls⟩

lemma scanRefs_eq_false_iff (ra : List (String × String)) (p : List String) :
    ∀ refs : List RawRef, scanRefs ra p refs = false ↔
      ∃ r ∈ refs, r.type = "retweeted" ∧
        ∃ a, lastLookup ra r.id = some a ∧ a ∈ p := by
  intro refs
  induction refs with
  | nil => simp [scanRefs]
  | cons r rest ih =>
    by_cases hty : r.type = "retweeted"
    · cases hla : lastLookup ra r.id with
      | none =>
        have hstep : scanRefs ra p (r :: rest) = scanRefs ra p rest := by
          simp [scanRefs, hty, hla]
        rw [hstep, ih]
        constructor
        · rintro ⟨r2, hr2, h⟩
          exact ⟨r2, List.mem_cons_of_mem _ hr2, h⟩
        · rintro ⟨r2, hr2, hty2, a, hla2, hmem⟩
          rcases List.mem_cons.mp hr2 with heq | hmem2
          · subst heq; rw [hla] at hla2; cases hla2
          · exact ⟨r2, hmem2, hty2, a, hla2, hmem⟩
      | some a =>
        by_cases hmem : a ∈ p
        · have hstep : scanRefs ra p (r :: rest) = false := by
            simp [scanRefs, hty, hla, hmem]
          rw [hstep]
          constructor
          · intro _
            exact ⟨r, List.mem_cons_self _ _, hty, a, hla, hmem⟩
          · intro _; rfl
        · have hstep : scanRefs ra p (r :: rest) = scanRefs ra p rest := by
            simp [scanRefs, hty, hla, hmem]
          rw [hstep, ih]
          constructor
          · rintro ⟨r2, hr2, h⟩
            exact ⟨r2, List.mem_cons_of_mem _ hr2, h⟩
          · rintro ⟨r2, hr2, hty2, a2, hla2, hmem2⟩
            rcases List.mem_cons.mp hr2 with handeq | hmem3
            · subst handeq
              rw [hla] at hla2
              cases hla2
              exact absurd hmem2 hmem
            · exact ⟨r2, hmem3, hty2, a2, hla2, hmem2⟩
    · have hstep : scanRefs ra p (r :: rest) = scanRefs ra p rest := by
        simp [scanRefs, hty]
      rw [hstep, ih]
      constructor
      · rintro ⟨r2, hr2, h⟩
        exact ⟨r2, List.mem_cons_of_mem _ hr2, h⟩
      · rintro ⟨r2, hr2, hty2, a2, hla2, hmem2⟩
        rcases List.mem_cons.mp hr2 with handeq | hmem3
        · subst handeq; exact absurd hty2 hty
        · exact ⟨r2, hmem3, hty2, a2, hla2, hmem2⟩

lemma should_delete_eq_false_iff (tw : TweetRec) (p : List String) :
    should_delete_tweet tw p = false ↔ hasPreservedRetweet tw p := by
  unfold should_delete_tweet hasPreservedRetweet
  exact scanRefs_eq_false_iff tw.refAuthors p tw.refs

lemma scanRefs_perm (ra : List (String × String)) (p : List String)
    {l1 l2 : List RawRef} (hperm : List.Perm l1 l2) :
    scanRefs ra p l1 = scanRefs ra p l2 := by
  have hiff : (scanRefs ra p l1 = false) ↔ (scanRefs ra p l2 = false) := by
    rw [scanRefs_eq_false_iff, scanRefs_eq_false_iff]
    constructor
    · rintro ⟨r, hr, h⟩; exact ⟨r, hperm.mem_iff.mp hr, h⟩
    · rintro ⟨r, hr, h⟩; exact ⟨r, hperm.mem_iff.mpr hr, h⟩
  cases h1 : scanRefs ra p l1 with
  | false => exact (hiff.mp h1).symm
  | true =>
    cases h2 : scanRefs ra p l2 with
    | false => rw [hiff.mpr h2] at h1; cases h1
    | true => rfl

/-- Claim C1: for every `PostRecord` and every `PreserveSet`, the
classifier returns `Preserve` if and only if the post has at least one
reference of kind retweet whose resolved author id (as attached from the
page's expansion data) is a member of the preserve set; in every other
case it returns `Delete`. -/
theorem claim_C1_classifier_preserve_iff (tw : TweetRec) (preserve : List String) :
    classify tw preserve = Outcome.Preserve ↔ hasPreservedRetweet tw preserve := by
  unfold classify
  constructor
  · intro h
    by_cases hsd : should_delete_tweet tw preserve = true
    · rw [if_pos hsd] at h; cases h
    · exact (should_delete_eq_false_iff tw preserve).mp (Bool.eq_false_iff.mpr hsd)
  · intro h
    have hfalse : should_delete_tweet tw preserve = false :=
      (should_delete_eq_false_iff tw preserve).mpr h
    rw [hfalse]
    rfl

/-- Claim C9: the classifier is a pure deterministic function of its two
arguments (equal inputs give equal outcomes), and its outcome is
unchanged under any permutation of the post's reference sequence. -/
theorem claim_C9_classifier_pure_perm (tw : TweetRec) (preserve : List String) :
    (∀ tw2 preserve2, tw = tw2 → preserve = preserve2 →
      classify tw preserve = classify tw2 preserve2) ∧
    (∀ refs2 : List RawRef, List.Perm tw.refs refs2 →
      classify { tw with refs := refs2 } preserve = classify tw preserve) := by
  constructor
  · intro tw2 p2 h1 h2; rw [h1, h2]
  · intro refs2 hperm
    unfold classify should_delete_tweet
    rw [scanRefs_perm tw.refAuthors preserve hperm.symm]

/-- Concrete instantiation of the permutation half of claim C9: swapping
the two references of a concrete record leaves the outcome unchanged. -/
theorem claim_C9_witness :
    classify { twC9 with refs := [⟨"replied_to", "8"⟩, ⟨"retweeted", "9"⟩] } ["77"] =
    classify twC9 ["77"] := by
  have hperm : List.Perm twC9.refs [⟨"replied_to", "8"⟩, ⟨"retweeted", "9"⟩] := by
    exact List.Perm.swap (⟨"replied_to", "8"⟩ : RawRef) (⟨"retweeted", "9"⟩ : RawRef) []
  exact (claim_C9_classifier_pure_perm twC9 ["77"]).2 _ hperm

lemma itersFrom_nil (mc : Option Nat) (i : Nat) : itersFrom mc i 0 = 0 := by
  cases mc with
  | none => rfl
  | some n => by_cases h : n = 0 <;> simp [itersFrom, h]

lemma itersFrom_cap (mc : Option Nat) (i len : Nat)
    (h : capReached mc i = true) : itersFrom mc i len = 0 := by
  cases mc with
  | none => simp [capReached] at h
  | some n =>
    simp only [capReached, Bool.and_eq_true, decide_eq_true_eq] at h
    obtain ⟨hn, hi⟩ := h
    simp [itersFrom, hn, Nat.sub_eq_zero_of_le hi]

lemma itersFrom_step (mc : Option Nat) (i len : Nat)
    (h : capReached mc i = false) :
    itersFrom mc i (len + 1) = itersFrom mc (i + 1) len + 1 := by
  cases mc with
  | none => rfl
  | some n =>
    by_cases hn : n = 0
    · simp [itersFrom, hn]
    · have hlt : i < n := by
        simp only [capReached, Bool.and_eq_false_iff, decide_eq_false_iff_not,
          not_not, not_le] at h
        rcases h with h | h
        · exact absurd h hn
        · exact h
      simp only [itersFrom, if_neg hn]
      omega

lemma deleteLoop_counts (dryRun : Bool) (mc : Option Nat) (ok : String → Bool) :
    ∀ (ts : List TweetRec) (i : Nat) (acc : Tally),
      (deleteLoop dryRun mc ok ts i acc).deleted +
          (deleteLoop dryRun mc ok ts i acc).failed =
        acc.deleted + acc.failed + itersFrom mc i ts.length ∧
      (deleteLoop dryRun mc ok ts i acc).calls.length =
        acc.calls.length + (if dryRun = true then 0 else itersFrom mc i ts.length) ∧
      acc.deleted ≤ (deleteLoop dryRun mc ok ts i acc).deleted ∧
      acc.failed ≤ (deleteLoop dryRun mc ok ts i acc).failed := by
  intro ts
  induction ts with
  | nil =>
    intro i acc
    simp [deleteLoop, itersFrom_nil]
  | cons tw rest ih =>
    intro i acc
    cases hcap : capReached mc i with
    | true =>
      simp [deleteLoop, hcap, itersFrom_cap mc i _ hcap]
    | false =>
      have hstep := itersFrom_step mc i rest.length hcap
      simp only [List.length_cons, hstep]
      cases hdr : dryRun with
      | true =>
        obtain ⟨h1, h2, h3, h4⟩ := ih (i + 1) { acc with deleted := acc.deleted + 1 }
        simp only [deleteLoop, hcap, hdr, Bool.false_eq_true, if_false, if_true] at h1 h2 h3 h4 ⊢
        refine ⟨by omega, by omega, by omega, by omega⟩
      | false =>
        cases hok : ok tw.id with
        | true =>
          obtain ⟨h1, h2, h3, h4⟩ := ih (i + 1)
            { deleted := acc.deleted + 1, failed := acc.failed,
              calls := acc.calls ++ [tw.id] }
          simp only [deleteLoop, hcap, hdr, hok, Bool.false_eq_true, if_false,
            if_true, List.length_append, List.length_singleton] at h1 h2 h3 h4 ⊢
          refine ⟨by omega, by omega, by omega, by omega⟩
        | false =>
          obtain ⟨h1, h2, h3, h4⟩ := ih (i + 1)
            { deleted := acc.deleted, failed := acc.failed + 1,
              calls := acc.calls ++ [tw.id] }
          simp only [deleteLoop, hcap, hdr, hok, Bool.false_eq_true, if_false,
            if_true, List.length_append, List.length_singleton] at h1 h2 h3 h4 ⊢
          refine ⟨by omega, by omega, by omega, by omega⟩

lemma deleteLoop_dry (mc : Option Nat) (ok : String → Bool) :
    ∀ (ts : List TweetRec) (i : Nat) (acc : Tally),
      deleteLoop true mc ok ts i acc =
        ⟨acc.deleted + itersFrom mc i ts.length, acc.failed, acc.calls⟩ := by
  intro ts
  induction ts with
  | nil => intro i acc; simp [deleteLoop, itersFrom_nil]
  | cons tw rest ih =>
    intro i acc
    cases hcap : capReached mc i with
    | true => simp [deleteLoop, hcap, itersFrom_cap mc i _ hcap]
    | false =>
      have hstep := itersFrom_step mc i rest.length hcap
      simp only [deleteLoop, hcap, Bool.false_eq_true, if_false, if_true,
        List.length_cons, hstep, ih]
      congr 1
      omega

/-- Claim C4: with `dry_run = true` the deletion executor produces
`failed_count = 0`, never invokes the collaborator's delete operation
(its call list is empty), and records one simulated deletion per
processed post in `deleted_count`. -/
theorem claim_C4_dry_run_no_calls (mc : Option Nat) (ok : String → Bool)
    (tweets : List TweetRec) :
    delete_tweets true mc ok tweets =
      ⟨processedCount mc tweets.length, 0, []⟩ := by
  unfold delete_tweets processedCount
  rw [deleteLoop_dry mc ok tweets 0 ⟨0, 0, []⟩]
  simp

/-- Claim C10: the returned `deleted_count + failed_count` equals the
number of posts actually iterated (full input length, or the cap when
the loop guard puts one in effect; a cap of `0` is falsy in the guard
and hence never in effect), and both counters are monotonically
non-decreasing over the run (the loop state never decreases either
counter). -/
theorem claim_C10_tally_conservation (dryRun : Bool) (mc : Option Nat)
    (ok : String → Bool) (tweets : List TweetRec) :
    (delete_tweets dryRun mc ok tweets).deleted +
        (delete_tweets dryRun mc ok tweets).failed =
      processedCount mc tweets.length ∧
    (∀ (ts : List TweetRec) (i : Nat) (acc : Tally),
      acc.deleted ≤ (deleteLoop dryRun mc ok ts i acc).deleted ∧
      acc.failed ≤ (deleteLoop dryRun mc ok ts i acc).failed) := by
  constructor
  · have h := (deleteLoop_counts dryRun mc ok tweets 0 ⟨0, 0, []⟩).1
    unfold delete_tweets processedCount
    simpa using h
  · intro ts i acc
    exact ⟨(deleteLoop_counts dryRun mc ok ts i acc).2.2.1,
      (deleteLoop_counts dryRun mc ok ts i acc).2.2.2⟩

/-- Counterexample to claim C2 as stated: `max_count` set to the value
`0` does not stop the loop — the guard
`if MAX_TWEETS_TO_PROCESS and i >= MAX_TWEETS_TO_PROCESS` is falsy for
`0` — so one post is still processed, exceeding the claimed bound of at
most `0` deletions. -/
theorem claim_C2_counterexample :
    (delete_tweets true (some 0) (fun _ => true) [twPlain]).deleted = 1 ∧
    ¬ ((delete_tweets true (some 0) (fun _ => true) [twPlain]).deleted +
        (delete_tweets true (some 0) (fun _ => true) [twPlain]).failed ≤ 0) := by
  decide

/-- Claim C2 as amended: for every positive set value `N` of
`max_count`, the executor performs at most `N` collaborator delete
calls, and in total at most `N` posts are processed (real or simulated),
even if more posts were classified for deletion. (A value of `0` is
falsy in the loop guard and behaves like `None`.) -/
theorem claim_C2_cap_bounds (n : Nat) (hn : 1 ≤ n) (dryRun : Bool)
    (ok : String → Bool) (tweets : List TweetRec) :
    (delete_tweets dryRun (some n) ok tweets).deleted +
        (delete_tweets dryRun (some n) ok tweets).failed ≤ n ∧
    (delete_tweets dryRun (some n) ok tweets).calls.length ≤ n := by
  obtain ⟨h1, h2, _, _⟩ := deleteLoop_counts dryRun (some n) ok tweets 0 ⟨0, 0, []⟩
  have hn0 : ¬ n = 0 := by omega
  have hiter : itersFrom (some n) 0 tweets.length ≤ n := by
    simp only [itersFrom, if_neg hn0, Nat.sub_zero]
    exact Nat.min_le_left _ _
  simp only [Nat.zero_add, Nat.add_zero, List.length_nil] at h1 h2
  have hcalls : (deleteLoop dryRun (some n) ok tweets 0 ⟨0, 0, []⟩).calls.length ≤
      itersFrom (some n) 0 tweets.length := by
    rw [h2]
    cases dryRun <;> simp
  unfold delete_tweets
  exact ⟨by omega, by omega⟩

/-- Witness for the amended claim C2 at `N = 1` on a two-post input: at
most one post is processed. -/
theorem claim_C2_witness :
    (delete_tweets true (some 1) (fun _ => true) [twPlain, twC9]).deleted +
        (delete_tweets true (some 1) (fun _ => true) [twPlain, twC9]).failed ≤ 1 ∧
    (delete_tweets true (some 1) (fun _ => true) [twPlain, twC9]).calls.length ≤ 1 :=
  claim_C2_cap_bounds 1 (by decide) true (fun _ => true) [twPlain, twC9]

lemma fetchLoop_chain (fetch : Option String → Except String Page) :
    ∀ (pages : List Page) (c : Option String), FetchChain fetch c pages →
      ∀ fuel : Nat, pages.length ≤ fuel →
      (fetchLoop fetch fuel c).records = (pages.map processPage).flatten ∧
      (fetchLoop fetch fuel c).requests.length = pages.length ∧
      (fetchLoop fetch fuel c).errors = [] := by
  intro pages c hchain
  induction hchain with
  | last c p hf hn =>
    intro fuel hfuel
    cases fuel with
    | zero => simp at hfuel
    | succ m => simp [fetchLoop, hf, hn]
  | step c p t rest hf hn hrest ih =>
    intro fuel hfuel
    cases fuel with
    | zero => simp at hfuel
    | succ m =>
      have hm : rest.length ≤ m := by
        simp only [List.length_cons] at hfuel
        omega
      obtain ⟨ih1, ih2, ih3⟩ := ih m hm
      simp [fetchLoop, hf, hn, ih1, ih2, ih3]

lemma map_length_processPage (pgs : List Page) :
    List.map (List.length ∘ processPage) pgs =
      List.map (fun p => p.data.length) pgs := by
  induction pgs with
  | nil => rfl
  | cons p ps ih => simp [Function.comp, processPage, ih]

/-- Claim C3: for every finite sequence of error-free pages whose
pagination tokens chain correctly, the aggregator returns exactly the
per-page records in page order (each reported post exactly once), of
total length the sum of the page post counts; it issues exactly one
request per chain page (the loop terminates at the page without a next
token) and logs no error. Fuel stands in for the source's unbounded
`while True`; any amount covering the chain gives the same run. -/
theorem claim_C3_aggregator_complete (fetch : Option String → Except String Page)
    (pages : List Page) (fuel : Nat)
    (hchain : FetchChain fetch none pages) (hfuel : pages.length ≤ fuel) :
    (get_all_tweets fetch fuel).records = (pages.map processPage).flatten ∧
    (get_all_tweets fetch fuel).records.length =
      (pages.map (fun p => p.data.length)).sum ∧
    (get_all_tweets fetch fuel).requests.length = pages.length ∧
    (get_all_tweets fetch fuel).errors = [] := by
  obtain ⟨h1, h2, h3⟩ := fetchLoop_chain fetch pages none hchain fuel hfuel
  unfold get_all_tweets
  refine ⟨h1, ?_, h2, h3⟩
  rw [h1, List.length_flatten, List.map_map, map_length_processPage]

/-- Concrete instantiation of claim C3 on the two-page chain served by
`fetchAB`. -/
theorem claim_C3_witness :
    (get_all_tweets fetchAB 2).records = ([pageA, pageB].map processPage).flatten ∧
    (get_all_tweets fetchAB 2).records.length =
      ([pageA, pageB].map (fun p => p.data.length)).sum ∧
    (get_all_tweets fetchAB 2).requests.length = [pageA, pageB].length ∧
    (get_all_tweets fetchAB 2).errors = [] :=
  claim_C3_aggregator_complete fetchAB [pageA, pageB] 2
    (FetchChain.step none pageA "T" [pageB] rfl rfl
      (FetchChain.last (some "T") pageB rfl rfl))
    (by decide)

lemma fetchLoop_errchain (fetch : Option String → Except String Page)
    (e : String) :
    ∀ (pages : List Page) (c : Option String), FetchErrChain fetch e c pages →
      ∀ fuel : Nat, pages.length + 1 ≤ fuel →
      (fetchLoop fetch fuel c).records = (pages.map processPage).flatten ∧
      (fetchLoop fetch fuel c).requests.length = pages.length + 1 ∧
      (fetchLoop fetch fuel c).errors = [e] := by
  intro pages c hchain
  induction hchain with
  | here c hf =>
    intro fuel hfuel
    cases fuel with
    | zero => simp at hfuel
    | succ m => simp [fetchLoop, hf]
  | step c p t rest hf hn hrest ih =>
    intro fuel hfuel
    cases fuel with
    | zero => simp at hfuel
    | succ m =>
      have hm : rest.length + 1 ≤ m := by
        simp only [List.length_cons] at hfuel
        omega
      obtain ⟨ih1, ih2, ih3⟩ := ih m hm
      simp [fetchLoop, hf, hn, ih1, ih2, ih3]

/-- Claim C5: if a page request fails, the aggregator logs that error
(the returned error log is exactly the failing request's message), stops
paging (exactly one request follows the pages fetched before the
failure), and returns the records aggregated from the pages before the
failure — wherever in the chain the failure occurs. The embedded loop
returns a plain `FetchResult`: the `except` branch of the source is the
only handler, so the error never propagates to the caller. -/
theorem claim_C5_error_partial_result (fetch : Option String → Except String Page)
    (e : String) (pages : List Page) (fuel : Nat)
    (hchain : FetchErrChain fetch e none pages)
    (hfuel : pages.length + 1 ≤ fuel) :
    (get_all_tweets fetch fuel).records = (pages.map processPage).flatten ∧
    (get_all_tweets fetch fuel).errors = [e] ∧
    (get_all_tweets fetch fuel).requests.length = pages.length + 1 := by
  obtain ⟨h1, h2, h3⟩ := fetchLoop_errchain fetch e pages none hchain fuel hfuel
  exact ⟨h1, h3, h2⟩

/-- Concrete instantiation of claim C5: the second page request of
`fetchBoom` fails, and the run returns exactly the first page's records
with the error logged. -/
theorem claim_C5_witness :
    (get_all_tweets fetchBoom 2).records = ([pageA].map processPage).flatten ∧
    (get_all_tweets fetchBoom 2).errors = ["boom"] ∧
    (get_all_tweets fetchBoom 2).requests.length = [pageA].length + 1 :=
  claim_C5_error_partial_result fetchBoom "boom" [pageA] 2
    (FetchErrChain.step none pageA "T" [] rfl rfl
      (FetchErrChain.here (some "T") rfl))
    (by decide)

/-- Counterexample to claim C6 as stated: against `fetchEmptyNext` the
first page has zero posts but carries a next token, and the loop does
not end there — a second page request is issued and the second page's
post is still aggregated. -/
theorem claim_C6_counterexample :
    fetchEmptyNext none = .ok ⟨[], [], some "T"⟩ ∧
    (get_all_tweets fetchEmptyNext 2).requests = [none, some "T"] ∧
    (get_all_tweets fetchEmptyNext 2).records.length = 1 := by
  refine ⟨rfl, rfl, rfl⟩

/-- Claim C6 as amended: a page containing zero posts ends the loop
without error provided it also carries no next token: that round
contributes no records, issues no further request, and logs nothing.
(An empty page whose `meta` still holds a `next_token` keeps the loop
paging, as the counterexample shows; the loop's sole termination
condition is the absence of the token.) -/
theorem claim_C6_empty_tokenless_page_ends (fetch : Option String → Except String Page)
    (fuel : Nat) (c : Option String) (pg : Page)
    (hf : fetch c = .ok pg) (hdata : pg.data = []) (hnext : pg.next = none) :
    fetchLoop fetch (fuel + 1) c = ⟨[], [c], []⟩ := by
  simp [fetchLoop, hf, hnext, processPage, hdata]

/-- Concrete instantiation of the amended claim C6: one empty tokenless
page ends the run with no records, one request, no error. -/
theorem claim_C6_witness :
    fetchLoop fetchEmptyOnly 1 none = ⟨[], [none], []⟩ :=
  claim_C6_empty_tokenless_page_ends fetchEmptyOnly 0 none ⟨[], [], none⟩ rfl rfl rfl

lemma mem_insertSet (s : List String) (y x : String) :
    x ∈ insertSet s y ↔ x ∈ s ∨ x = y := by
  unfold insertSet
  by_cases h : y ∈ s
  · rw [if_pos h]
    constructor
    · exact Or.inl
    · rintro (h1 | rfl)
      · exact h1
      · exact h
  · rw [if_neg h]
    simp [List.mem_append]

lemma mem_preserve_fold (resolve : String → LookupResult) :
    ∀ (usernames : List String) (acc : List String) (x : String),
      x ∈ usernames.foldl (preserveStep resolve) acc ↔
        x ∈ acc ∨ ∃ u ∈ usernames, resolve u = LookupResult.found x := by
  intro usernames
  induction usernames with
  | nil =>
    intro acc x
    simp
  | cons u us ih =>
    intro acc x
    rw [List.foldl_cons, ih]
    cases hr : resolve u with
    | found i =>
      rw [show preserveStep resolve acc u = insertSet acc i from by
        simp [preserveStep, hr]]
      rw [mem_insertSet]
      constructor
      · rintro ((h1 | rfl) | ⟨u2, hu2, h2⟩)
        · exact Or.inl h1
        · exact Or.inr ⟨u, List.mem_cons_self _ _, hr⟩
        · exact Or.inr ⟨u2, List.mem_cons_of_mem _ hu2, h2⟩
      · rintro (h1 | ⟨u2, hu2, h2⟩)
        · exact Or.inl (Or.inl h1)
        · rcases List.mem_cons.mp hu2 with heq | hmem
          · subst heq
            rw [hr] at h2
            cases h2
            exact Or.inl (Or.inr rfl)
          · exact Or.inr ⟨u2, hmem, h2⟩
    | notFound =>
      rw [show preserveStep resolve acc u = acc from by simp [preserveStep, hr]]
      constructor
      · rintro (h1 | ⟨u2, hu2, h2⟩)
        · exact Or.inl h1
        · exact Or.inr ⟨u2, List.mem_cons_of_mem _ hu2, h2⟩
      · rintro (h1 | ⟨u2, hu2, h2⟩)
        · exact Or.inl h1
        · rcases List.mem_cons.mp hu2 with heq | hmem
          · subst heq
            rw [hr] at h2
            cases h2
          · exact Or.inr ⟨u2, hmem, h2⟩
    | err m =>
      rw [show preserveStep resolve acc u = acc from by simp [preserveStep, hr]]
      constructor
      · rintro (h1 | ⟨u2, hu2, h2⟩)
        · exact Or.inl h1
        · exact Or.inr ⟨u2, List.mem_cons_of_mem _ hu2, h2⟩
      · rintro (h1 | ⟨u2, hu2, h2⟩)
        · exact Or.inl h1
        · rcases List.mem_cons.mp hu2 with heq | hmem
          · subst heq
            rw [hr] at h2
            cases h2
          · exact Or.inr ⟨u2, hmem, h2⟩

/-- Claim C7: the resolver's returned set contains exactly the canonical
id strings of the usernames the collaborator successfully resolves; a
failed or erroring lookup contributes nothing to the set and, since the
fold runs over the whole configured list regardless, never prevents
later usernames from being resolved. -/
theorem claim_C7_resolver_membership (resolve : String → LookupResult)
    (usernames : List String) (x : String) :
    x ∈ get_user_ids_to_preserve resolve usernames ↔
      ∃ u ∈ usernames, resolve u = LookupResult.found x := by
  unfold get_user_ids_to_preserve
  rw [mem_preserve_fold]
  simp

/-- Claim C8: with `dry_run = false`, every confirmation input other
than the exact phrase `DELETE` makes the orchestrator abort before
touching any collaborator: the outcome is `aborted` and no
`client.delete_tweet` call is ever made. -/
theorem claim_C8_confirmation_gate (confirm : String)
    (hconfirm : confirm ≠ "DELETE")
    (resolve : String → LookupResult) (usernames : List String)
    (fetch : Option String → Except String Page) (fuel : Nat)
    (maxCount : Option Nat) (deleteOk : String → Bool) :
    run false confirm resolve usernames fetch fuel maxCount deleteOk =
      ⟨RunOutcome.aborted, []⟩ := by
  unfold run
  rw [if_pos ⟨rfl, hconfirm⟩]

/-- Concrete instantiation of claim C8: the input `no` aborts a
non-dry-run with no delete calls. -/
theorem claim_C8_witness :
    run false "no" (fun _ => LookupResult.notFound) [] fetchEmptyOnly 1 none
        (fun _ => true) =
      ⟨RunOutcome.aborted, []⟩ :=
  claim_C8_confirmation_gate "no" (by decide) (fun _ => LookupResult.notFound) []
    fetchEmptyOnly 1 none (fun _ => true)
